import Mathlib

/-
Verification of the count-min sketch implementation in
src/count-min-101/CountMinSketch.ipynb (class `Sketch` plus its helper
functions, together with the `heapq` library routines it calls).

Shallow embedding conventions:
* Keys are modelled as natural numbers; the Python builtin `hash` applied to a
  key is modelled by an explicitly passed function `h : Nat → Int`, and
  `abs(hash(key))` becomes `(h key).natAbs`.  The Python ordering on keys
  (used by list comparison inside `heapq`) is the order on `Nat`.
* The numpy grid `self.count` (dtype int32) is a `List (List Int)` whose
  cells hold the signed 32-bit value; every write wraps the exact sum into
  `[-2^31, 2^31)` via `int32wrap`, which is what numpy int32 arithmetic does.
* Python `heapq` mutates a list in place; here each routine returns the new
  list.  The bounded loops of `_siftdown` / `_siftup` are expressed with an
  explicit fuel argument that is always at least the number of iterations the
  Python loop performs (`pos` for `_siftdown`, `len(heap)` for `_siftup`), so
  the fuel never runs out on the states the program reaches.
* `self.top_k` is a Python dict from key to the list object `[estimate, key]`;
  it is modelled as an association list from the key to the estimate.
  In Python the dict value and the heap entry are the *same* list object
  exactly for keys admitted through the `heappushpop` branch, so a later
  in-place mutation `old_pair[0] = estimate` is visible in the heap only for
  those keys.  The embedding records this object identity in the extra field
  `aliased`: the set of keys whose dict entry is the very object stored in the
  heap.
-/

namespace CountMin

/-- `BIG_PRIME = 9223372036854775783` from the notebook. -/
def BIG_PRIME : Nat := 9223372036854775783

/-- Default pair used by out-of-range list reads (never hit in-bounds). -/
def dflt : Int × Nat := (0, 0)

/-- Python list comparison `[e1, k1] < [e2, k2]`: lexicographic on the
estimate, then on the key. -/
def pairLtB (p q : Int × Nat) : Bool :=
  decide (p.1 < q.1) || (decide (p.1 = q.1) && decide (p.2 < q.2))

/-- `heapq._siftdown(heap, startpos, pos)` with `newitem = heap[pos]` already
read: move the item toward the root while its parent is larger.  `fuel`
bounds the loop; `fuel = pos` suffices because `pos` strictly decreases. -/
def siftdownFuel : Nat → (Int × Nat) → List (Int × Nat) → Nat → Nat → List (Int × Nat)
  | 0, newitem, heap, _, pos => heap.set pos newitem
  | fuel + 1, newitem, heap, startpos, pos =>
    if startpos < pos then
      let parentpos := (pos - 1) / 2
      let parent := heap.getD parentpos dflt
      if pairLtB newitem parent then
        siftdownFuel fuel newitem (heap.set pos parent) startpos parentpos
      else heap.set pos newitem
    else heap.set pos newitem

/-- `heapq._siftdown` on a heap whose slot `pos` conceptually holds
`newitem`. -/
def siftdown (newitem : Int × Nat) (heap : List (Int × Nat)) (startpos pos : Nat) :
    List (Int × Nat) :=
  siftdownFuel pos newitem heap startpos pos

/-- The descending loop of `heapq._siftup`: bubble the smaller child up into
the hole at `pos` until a leaf is reached; returns the heap and the final
hole position.  `fuel = len(heap)` suffices because `pos` strictly grows. -/
def siftupLoopFuel : Nat → List (Int × Nat) → Nat → List (Int × Nat) × Nat
  | 0, heap, pos => (heap, pos)
  | fuel + 1, heap, pos =>
    let endpos := heap.length
    let childpos := 2 * pos + 1
    if childpos < endpos then
      let rightpos := childpos + 1
      let childpos2 :=
        if rightpos < endpos &&
            !(pairLtB (heap.getD childpos dflt) (heap.getD rightpos dflt)) then
          rightpos
        else childpos
      siftupLoopFuel fuel (heap.set pos (heap.getD childpos2 dflt)) childpos2
    else (heap, pos)

/-- `heapq._siftup(heap, pos)`: read `newitem = heap[pos]`, walk the hole down
to a leaf, then sift `newitem` back up from there. -/
def siftup (heap : List (Int × Nat)) (pos : Nat) : List (Int × Nat) :=
  let newitem := heap.getD pos dflt
  let r := siftupLoopFuel heap.length heap pos
  siftdown newitem r.1 pos r.2

/-- `heapq.heappush(heap, item)`: append, then sift the new last slot up. -/
def heappush (heap : List (Int × Nat)) (item : Int × Nat) : List (Int × Nat) :=
  siftdown item (heap ++ [item]) 0 heap.length

/-- `heapq.heappushpop(heap, item)`: returns the popped pair and the new
heap.  If the heap is empty or its root is not smaller than `item`, `item`
itself is returned and the heap does not change. -/
def heappushpop (heap : List (Int × Nat)) (item : Int × Nat) :
    (Int × Nat) × List (Int × Nat) :=
  match heap with
  | [] => (item, [])
  | root :: rest =>
    if pairLtB root item then (root, siftup (item :: rest) 0)
    else (item, root :: rest)

/-- `heapq.heapify(x)`: `_siftup` on every interior node, last first. -/
def heapify (heap : List (Int × Nat)) : List (Int × Nat) :=
  ((List.range (heap.length / 2)).reverse).foldl (fun hp i => siftup hp i) heap

/-- Dict lookup `self.top_k.get(key)` (the estimate stored for `key`). -/
def lookupA : List (Nat × Int) → Nat → Option Int
  | [], _ => none
  | (k0, v0) :: rest, key => if k0 = key then some v0 else lookupA rest key

/-- Dict write `self.top_k[key] = [estimate, key]`: replace in place if the
key is present, otherwise append (Python dicts keep insertion order). -/
def setA : List (Nat × Int) → Nat → Int → List (Nat × Int)
  | [], key, v => [(key, v)]
  | (k0, v0) :: rest, key, v =>
    if k0 = key then (k0, v) :: rest else (k0, v0) :: setA rest key v

/-- Dict deletion `del self.top_k[key]`. -/
def delA : List (Nat × Int) → Nat → List (Nat × Int)
  | [], _ => []
  | (k0, v0) :: rest, key => if k0 = key then rest else (k0, v0) :: delA rest key

/-- The guard `not self.heap or estimate >= self.heap[0][0]` that gates all of
`update_heap`. -/
def gateOK : List (Int × Nat) → Int → Bool
  | [], _ => true
  | p :: _, est => decide (p.1 ≤ est)

/-- Wrap an exact integer into a signed 32-bit value, as numpy int32
arithmetic does on store. -/
def int32wrap (z : Int) : Int := (z + 2 ^ 31) % 2 ^ 32 - 2 ^ 31

/-- Read `self.count[r][c]` (0 when out of range; in-bounds in practice). -/
def cellAt (g : List (List Int)) (r c : Nat) : Int := (g.getD r []).getD c 0

/-- Replace the `i`-th entry of a list by `f` of itself. -/
def modifyNth (f : α → α) : Nat → List α → List α
  | _, [] => []
  | 0, a :: as => f a :: as
  | n + 1, a :: as => a :: modifyNth f n as

/-- One hash function of the family: `lambda x: (a * x + b) % BIG_PRIME %
self.w` from `Sketch.__generate_hash_function`. -/
def hashApply (a b w x : Nat) : Nat := ((a * x + b) % BIG_PRIME) % w

/-- The state of a `Sketch` object.  `d`, `w`, `k` are the derived and given
size parameters; `hashParams` holds the random `(a, b)` pair of each row;
`count` is the numpy int32 grid; `heap` and `topk` are `self.heap` and
`self.top_k`; `aliased` records which keys have their dict pair object also
stored in the heap (see the header comment). -/
structure Sketch where
  d : Nat
  w : Nat
  k : Nat
  hashParams : List (Nat × Nat)
  count : List (List Int)
  heap : List (Int × Nat)
  topk : List (Nat × Int)
  aliased : List Nat
  deriving DecidableEq

/-- The state built at the end of `Sketch.__init__` once validation has
passed: a zeroed `d × w` grid, an empty heap and an empty dict. -/
def initSketch (d w k : Nat) (hp : List (Nat × Nat)) : Sketch :=
  ⟨d, w, k, hp, List.replicate d (List.replicate w 0), [], [], []⟩

/-- `Sketch.get(key)`: start from `sys.maxsize` and take the minimum of the
addressed cell over every row. -/
def get (h : Nat → Int) (s : Sketch) (key : Nat) : Int :=
  s.hashParams.enum.foldl
    (fun value rab =>
      min (cellAt s.count rab.1 (hashApply rab.2.1 rab.2.2 s.w (h key).natAbs)) value)
    (2 ^ 63 - 1)

/-- The grid mutation of `Sketch.update`: for every row, add `inc` into the
hashed column, with int32 wrap-around on store. -/
def updateCount (h : Nat → Int) (s : Sketch) (key : Nat) (inc : Int) :
    List (List Int) :=
  s.hashParams.enum.foldl
    (fun cnt rab =>
      modifyNth
        (modifyNth (fun c => int32wrap (c + inc))
          (hashApply rab.2.1 rab.2.2 s.w (h key).natAbs))
        rab.1 cnt)
    s.count

/-- `Sketch.update_heap(key)`: recompute the estimate and reconcile the heap
and the dict, all gated by `not self.heap or estimate >= self.heap[0][0]`.
The three branches mirror the Python source:
* key present: mutate the dict pair in place (visible in the heap only when
  that pair object is aliased into the heap) and re-heapify;
* dict smaller than `k`: push a fresh pair and store a second fresh pair in
  the dict (two distinct objects, hence not aliased);
* otherwise `heappushpop`; on a genuine swap the evicted key is deleted and
  the new pair object is stored in both places (aliased); when the pushed
  pair bounces straight back out, the trailing `self.top_k[key] = new_pair`
  of the source still stores it in the dict (no heap entry). -/
def update_heap (h : Nat → Int) (s : Sketch) (key : Nat) : Sketch :=
  let estimate := get h s key
  if gateOK s.heap estimate then
    match lookupA s.topk key with
    | some _ =>
      { s with
        topk := setA s.topk key estimate,
        heap :=
          heapify
            (if s.aliased.contains key then
              s.heap.map (fun p => if p.2 = key then (estimate, key) else p)
            else s.heap) }
    | none =>
      if s.topk.length < s.k then
        { s with
          heap := heappush s.heap (estimate, key),
          topk := setA s.topk key estimate }
      else
        let newPair := (estimate, key)
        let res := heappushpop s.heap newPair
        if newPair.2 ≠ res.1.2 then
          { s with
            heap := res.2,
            topk := setA (delA s.topk res.1.2) key estimate,
            aliased := key :: s.aliased.erase res.1.2 }
        else
          { s with heap := res.2, topk := setA s.topk key estimate }
  else s

/-- `Sketch.update(key, increment)`: write the grid, then reconcile the
top-k structures against the freshly updated grid. -/
def Sketch.update (h : Nat → Int) (s : Sketch) (key : Nat) (inc : Int) : Sketch :=
  update_heap h { s with count := updateCount h s key inc } key

/-- The operation `observe(key)` of the spec is `Sketch.update(key, 1)`, as performed by
`CM_top_users`. -/
def observe (h : Nat → Int) (s : Sketch) (key : Nat) : Sketch :=
  Sketch.update h s key 1

/-- Feed a stream of keys one at a time. -/
def runObserves (h : Nat → Int) (s : Sketch) (keys : List Nat) : Sketch :=
  keys.foldl (fun st k0 => observe h st k0) s

/-- Apply a sequence of `update(key, increment)` calls. -/
def runUpdates (h : Nat → Int) (s : Sketch) (ops : List (Nat × Int)) : Sketch :=
  ops.foldl (fun st o => Sketch.update h st o.1 o.2) s

/-- The true cumulative count of `key` in a sequence of update calls: the sum
of the increments applied for exactly that key. -/
def trueCount (ops : List (Nat × Int)) (key : Nat) : Int :=
  (ops.filter (fun o => o.1 == key)).foldl (fun acc o => acc + o.2) 0

/-- Insert a pair into an ascending list (Python ordering on `[est, key]`). -/
def insertSorted (p : Int × Nat) : List (Int × Nat) → List (Int × Nat)
  | [] => [p]
  | q :: rest => if pairLtB q p then q :: insertSorted p rest else p :: q :: rest

/-- Ascending sort of the dict values, as `sorted(s.top_k.values())` does. -/
def sortPairs (l : List (Int × Nat)) : List (Int × Nat) :=
  l.foldr insertSorted []

/-- The operation `snapshot()` of the spec: the candidate pairs in descending order, i.e.
`reversed(sorted(s.top_k.values()))` from `CM_top_users` (its extra `top_n`
display cut-off is not part of the structure). -/
def snapshot (s : Sketch) : List (Int × Nat) :=
  (sortPairs (s.topk.map (fun kv => (kv.2, kv.1)))).reverse

/-- `Sketch.__init__` validation followed by construction.  The notebook
computes `w = ceil(e / epsilon)` and `d = ceil(ln(1 / delta))` with float
arithmetic; those two derived sizes are taken as parameters here, while the
three validation tests are modelled exactly.  An `Except.error` is the
`ValueError` raise; no sketch value exists in that case. -/
def construct (delta epsilon : ℚ) (k : ℤ) (d w : Nat) (hp : List (Nat × Nat)) :
    Except String Sketch :=
  if delta ≤ 0 ∨ 1 ≤ delta then
    Except.error "delta must be between 0 and 1, exclusive"
  else if epsilon ≤ 0 ∨ 1 ≤ epsilon then
    Except.error "epsilon must be between 0 and 1, exclusive"
  else if k < 1 then
    Except.error "k must be a positive integer"
  else Except.ok (initSketch d w k.toNat hp)

/-- The identity key hash, one admissible instance of the Python builtin `hash` on the
key domain. -/
def pyId : Nat → Int := fun n => (n : Int)

/-! Helper lemmas about the embedded operations. -/

/-- Writing a key into the dict makes it retrievable with that value. -/
theorem lookupA_setA (l : List (Nat × Int)) (key : Nat) (v : Int) :
    lookupA (setA l key v) key = some v := by
  induction l with
  | nil => simp [setA, lookupA]
  | cons p rest ih =>
    obtain ⟨k0, v0⟩ := p
    by_cases h : k0 = key <;> simp [setA, lookupA, h, ih]

/-- An in-bounds `List.set` makes the written element a member. -/
theorem mem_set_self (l : List (Int × Nat)) (i : Nat) (a : Int × Nat)
    (h : i < l.length) : a ∈ l.set i a := by
  induction l generalizing i with
  | nil => simp at h
  | cons x xs ih =>
    cases i with
    | zero => simp
    | succ n =>
      simp only [List.set, List.mem_cons]
      exact Or.inr (ih n (by simpa using h))

/-- The sifted-down item always ends up a member of the heap: every exit of
`_siftdown` writes `newitem` into an in-bounds slot. -/
theorem mem_siftdownFuel (fuel : Nat) (item : Int × Nat) (hp2 : List (Int × Nat))
    (st pos : Nat) (h : pos < hp2.length) :
    item ∈ siftdownFuel fuel item hp2 st pos := by
  induction fuel generalizing hp2 pos with
  | zero => exact mem_set_self _ _ _ h
  | succ n ih =>
    unfold siftdownFuel
    dsimp only
    split
    · split
      · apply ih
        rw [List.length_set]
        have : (pos - 1) / 2 ≤ pos - 1 := Nat.div_le_self _ _
        omega
      · exact mem_set_self _ _ _ h
    · exact mem_set_self _ _ _ h

/-- The pushed item is a member of the heap returned by `heappush`. -/
theorem mem_heappush (heap : List (Int × Nat)) (item : Int × Nat) :
    item ∈ heappush heap item := by
  unfold heappush siftdown
  apply mem_siftdownFuel
  simp

/-- Index of an `enum` entry is below the list length. -/
theorem enum_fst_lt (l : List (Nat × Nat)) (p : Nat × (Nat × Nat)) (hp : p ∈ l.enum) :
    p.1 < l.length := by
  rw [List.enum_eq_zip_range] at hp
  exact List.mem_range.mp (List.of_mem_zip hp).1

/-- `getD` on a replicated list. -/
theorem getD_replicate (n : Nat) (a : List Int) (i : Nat) (d0 : List Int) :
    (List.replicate n a).getD i d0 = if i < n then a else d0 := by
  induction n generalizing i with
  | zero => simp
  | succ m ih =>
    cases i with
    | zero => simp [List.replicate]
    | succ j =>
      rw [List.replicate_succ, List.getD_cons_succ, ih]
      simp [Nat.succ_lt_succ_iff]

/-- Every cell of the freshly allocated grid reads as `0`. -/
theorem cellAt_init (d w r c : Nat) :
    cellAt (List.replicate d (List.replicate w (0 : Int))) r c = 0 := by
  unfold cellAt
  rw [getD_replicate]
  split
  · induction w generalizing c with
    | zero => simp
    | succ m ih =>
      cases c with
      | zero => simp [List.replicate]
      | succ j => rw [List.replicate_succ, List.getD_cons_succ]; exact ih j
  · simp

/-- Folding `min` of all-zero reads from the zero accumulator stays zero. -/
theorem fold_min_zero0 (l : List (Nat × (Nat × Nat))) (g : Nat × (Nat × Nat) → Int)
    (hg : ∀ a ∈ l, g a = 0) :
    l.foldl (fun acc a => min (g a) acc) 0 = 0 := by
  induction l with
  | nil => rfl
  | cons a tl ih =>
    simp only [List.foldl_cons]
    rw [hg a (List.mem_cons_self a tl), min_self]
    exact ih (fun x hx => hg x (List.mem_cons_of_mem a hx))

/-- Folding `min` of all-zero reads over a nonempty list from a nonnegative
accumulator (such as `sys.maxsize`) yields `0`. -/
theorem fold_min_zero (l : List (Nat × (Nat × Nat))) (g : Nat × (Nat × Nat) → Int)
    (v : Int) (hg : ∀ a ∈ l, g a = 0) (hv : 0 ≤ v) (hne : l ≠ []) :
    l.foldl (fun acc a => min (g a) acc) v = 0 := by
  cases l with
  | nil => exact absurd rfl hne
  | cons a tl =>
    simp only [List.foldl_cons]
    rw [hg a (List.mem_cons_self a tl), min_eq_left hv]
    exact fold_min_zero0 tl g (fun x hx => hg x (List.mem_cons_of_mem a hx))

/-! Concrete sketch states used by the claim theorems.  All use one row
(`d = 1`, valid for example for `delta = 0.5`), width `3` (the minimum the
notebook can produce), the key hash `pyId` and the row hash `(a, b) = (1, 0)`,
so the column of key `x` is `x % 3` and distinct small keys do not collide. -/

/-- A sketch with `k = 10`, as in the notebook examples. -/
def sketchA : Sketch := initSketch 1 3 10 [(1, 0)]

/-- A sketch with `k = 1`. -/
def sketchB : Sketch := initSketch 1 3 1 [(1, 0)]

/-- A sketch with `k = 2`. -/
def sketchC : Sketch := initSketch 1 3 2 [(1, 0)]

/-- `sketchB` after observing key `1` then key `0`: the second observe goes
through `heappushpop`, which bounces the pair `[1, 0]` straight back out, yet
the trailing dict write still stores key `0` in `top_k`. -/
def runB : Sketch := runObserves pyId sketchB [1, 0]

/-- `sketchB` after the stream `1, 0, 2, 2, 2`: key `0` sits in the dict with
cached estimate `1` while the heap root has climbed to `(3, 2)`. -/
def runC : Sketch := runObserves pyId sketchB [1, 0, 2, 2, 2]

/-- `sketchC` after a single `update(1, 5)`: one candidate with estimate `5`,
so the candidate set (capacity `2`) is not full. -/
def runD : Sketch := Sketch.update pyId sketchC 1 5

/-- `sketchC` after observing key `0` once: one candidate with estimate `1`. -/
def fillC : Sketch := runObserves pyId sketchC [0]

/-- A single update whose increment drives one int32 cell past `2 ^ 31 - 1`. -/
def opsOver : List (Nat × Int) := [(5, 2 ^ 31)]

/-- `sketchA` after `update(5, 2 ^ 31 - 1)`: the addressed cell holds the
largest representable int32 value. -/
def nearMax : Sketch := runUpdates pyId sketchA [(5, 2 ^ 31 - 1)]

/-! The claims. -/

/-- C1, counterexample: the claim says an observe of a new key always inserts
it while the candidate set has fewer than `k` members.  On `runD` the
candidate set has `1 < k = 2` members, key `0` is new, and `observe(0)`
computes estimate `1 < 5 = heap[0][0]`, so the guard of `update_heap` fails
and the key is inserted nowhere: the dict still misses it and the heap is
unchanged. -/
theorem claim1_cx :
    runD.topk.length < runD.k
    ∧ lookupA runD.topk 0 = none
    ∧ lookupA (observe pyId runD 0).topk 0 = none
    ∧ (observe pyId runD 0).heap = runD.heap := by decide

/-- C1, amended: if additionally the guard of `update_heap` passes (the heap
is empty or the freshly recomputed estimate is at least the estimate at the
heap root), then observing a key that is not yet a candidate, while the
candidate set has fewer than `k` members, inserts the pair
`(estimate, key)` into both the heap and the mapping. -/
theorem claim1_amended (h : Nat → Int) (s : Sketch) (key : Nat)
    (hnone : lookupA s.topk key = none)
    (hlen : s.topk.length < s.k)
    (hgate : gateOK s.heap (get h { s with count := updateCount h s key 1 } key) = true) :
    lookupA (observe h s key).topk key
        = some (get h { s with count := updateCount h s key 1 } key)
    ∧ (get h { s with count := updateCount h s key 1 } key, key) ∈ (observe h s key).heap := by
  unfold observe Sketch.update update_heap
  dsimp only
  rw [hgate]
  simp only [if_true, hnone, if_pos hlen]
  exact ⟨lookupA_setA _ _ _, mem_heappush _ _⟩

/-- C1, witness for the amended theorem at a concrete state: on `fillC`
(one candidate, estimate 1, `k = 2`) observing the new key `1` has estimate
`1 ≥ 1`, so the pair is inserted into both structures. -/
theorem claim1_witness :
    lookupA fillC.topk 1 = none
    ∧ fillC.topk.length < fillC.k
    ∧ gateOK fillC.heap (get pyId { fillC with count := updateCount pyId fillC 1 1 } 1) = true
    ∧ (lookupA (observe pyId fillC 1).topk 1
        = some (get pyId { fillC with count := updateCount pyId fillC 1 1 } 1)
      ∧ (get pyId { fillC with count := updateCount pyId fillC 1 1 } 1, 1)
          ∈ (observe pyId fillC 1).heap) :=
  ⟨by decide, by decide, by decide,
    claim1_amended pyId fillC 1 (by decide) (by decide) (by decide)⟩

/-- C2: the claim says heap and mapping always stay in sync with size at most
`k`.  The code violates it: on `runB` (`k = 1`, stream `1, 0`) the
`heappushpop` of `[1, 0]` against root `[1, 1]` returns the pushed pair
itself, yet the trailing `self.top_k[key] = new_pair` still stores key `0` in
the dict, so the dict has `2 > k` entries, key `0` has no heap entry, and the
snapshot has length `2 > k`. -/
theorem claim2_bug :
    runB.k = 1
    ∧ runB.topk.length = 2
    ∧ runB.heap.length = 1
    ∧ lookupA runB.topk 0 = some 1
    ∧ (runB.heap.filter (fun p => p.2 == 0)).length = 0
    ∧ (snapshot runB).length = 2 := by decide

/-- C3: the claim says `estimate(key) ≥ true_count(key)` for every positive
increment sequence.  The int32 grid wraps: after the single call
`update(5, 2 ^ 31)` the estimate is `-2 ^ 31`, strictly below the true count
`2 ^ 31`. -/
theorem claim3_bug :
    get pyId (runUpdates pyId sketchA opsOver) 5 < trueCount opsOver 5 := by decide

/-- C4: the claim says a single observe never decreases any estimate.  From
`nearMax` (addressed cell at `2 ^ 31 - 1`, reachable also by `2 ^ 31 - 1`
observes of key `5`, which leave the same grid) one further `observe(5)`
wraps the cell to `-2 ^ 31`, so the estimate strictly decreases. -/
theorem claim4_bug :
    get pyId (observe pyId nearMax 5) 5 < get pyId nearMax 5 := by decide

/-- C5: constructing with `delta = 0`, `delta = 1`, `epsilon ≤ 0`,
`epsilon ≥ 1` or `k = 0` yields the `ValueError` and no sketch value, while
`delta = 0.5, epsilon = 0.5, k = 1` yields a sketch.  The validation tests
run before anything is allocated, exactly as in `Sketch.__init__`. -/
theorem claim5_ok (delta epsilon : ℚ) (k : ℤ) (d w : Nat) (hp : List (Nat × Nat))
    (hbad : delta = 0 ∨ delta = 1 ∨ epsilon ≤ 0 ∨ 1 ≤ epsilon ∨ k = 0) :
    (∃ msg, construct delta epsilon k d w hp = Except.error msg)
    ∧ construct (1/2) (1/2) 1 d w hp = Except.ok (initSketch d w 1 hp) := by
  constructor
  · unfold construct
    by_cases h1 : delta ≤ 0 ∨ 1 ≤ delta
    · exact ⟨_, by rw [if_pos h1]⟩
    · by_cases h2 : epsilon ≤ 0 ∨ 1 ≤ epsilon
      · exact ⟨_, by rw [if_neg h1, if_pos h2]⟩
      · have h3 : k < 1 := by
          rcases hbad with h | h | h | h | h
          · exact absurd (Or.inl h.le) h1
          · exact absurd (Or.inr h.ge) h1
          · exact absurd (Or.inl h) h2
          · exact absurd (Or.inr h) h2
          · omega
        exact ⟨_, by rw [if_neg h1, if_neg h2, if_pos h3]⟩
  · unfold construct
    rw [if_neg (by norm_num), if_neg (by norm_num), if_neg (by norm_num)]
    norm_num

/-- C5, witness: `delta = 0` is rejected, `(0.5, 0.5, 1)` is accepted. -/
theorem claim5_witness :
    (∃ msg, construct 0 (1/2) 1 1 3 [(1, 0)] = Except.error msg)
    ∧ construct (1/2) (1/2) 1 1 3 [(1, 0)] = Except.ok (initSketch 1 3 1 [(1, 0)]) :=
  claim5_ok 0 (1/2) 1 1 3 [(1, 0)] (Or.inl rfl)

/-- C6: the claim says a counter is never silently reduced modulo the counter
width.  After the single call `update(5, 2 ^ 31)` on a fresh sketch the
addressed cell holds `-2 ^ 31`, not the exact sum `2 ^ 31` of the increments
hashed to it, and no error is raised (`Sketch.update` is a total function of
the state): the int32 store wrapped silently. -/
theorem claim6_bug :
    cellAt (runUpdates pyId sketchA opsOver).count 0 2 = -(2 ^ 31)
    ∧ trueCount opsOver 5 = 2 ^ 31
    ∧ cellAt (runUpdates pyId sketchA opsOver).count 0 2 ≠ trueCount opsOver 5 := by
  decide

/-- C7: the claim says observing a key that is already a candidate always
refreshes its cached estimate.  On `runC` (stream `1, 0, 2, 2, 2` with
`k = 1`) key `0` is a candidate with cached estimate `1`; observing it
recomputes estimate `2`, but `2 < 3 = heap[0][0]`, so the guard of
`update_heap` fails and the cached estimate stays `1`, stale against the
fresh estimate `2`.  (Key `0` became an orphaned dict entry through the C2
slip, which is what lets the heap root exceed its cached estimate.) -/
theorem claim7_bug :
    lookupA runC.topk 0 = some 1
    ∧ lookupA (observe pyId runC 0).topk 0 = some 1
    ∧ get pyId (observe pyId runC 0) 0 = 2 := by decide

/-- C8: every hash function of a sketch with positive width maps every key
into `[0, w)`, and with `hashParams` of length `d` every row index the
update and estimate loops touch is below `d`; hence all grid accesses of
`observe`, `estimate` and `snapshot` are in bounds (the embedded operations
are total functions). -/
theorem claim8_ok (s : Sketch) (h : Nat → Int) (key : Nat)
    (hw : 0 < s.w) (hd : s.hashParams.length = s.d) :
    (∀ ab ∈ s.hashParams, hashApply ab.1 ab.2 s.w (h key).natAbs < s.w)
    ∧ ∀ rab ∈ s.hashParams.enum, rab.1 < s.d := by
  constructor
  · intro ab _
    exact Nat.mod_lt _ hw
  · intro rab hm
    rw [← hd]
    exact enum_fst_lt _ _ hm

/-- C8, witness: on `sketchA` the single hash row sends key `5` to column
`2 < 3`. -/
theorem claim8_witness :
    0 < sketchA.w
    ∧ sketchA.hashParams.length = sketchA.d
    ∧ hashApply 1 0 sketchA.w (pyId 5).natAbs < sketchA.w :=
  ⟨by decide, by decide,
    (claim8_ok sketchA pyId 5 (by decide) (by decide)).1 (1, 0) (by decide)⟩

/-- C9: two sketches built from identical parameters and identical hash
parameters, fed the identical key stream, agree on every estimate query and
on the snapshot. -/
theorem claim9_ok (h1 h2 : Nat → Int) (d1 d2 w1 w2 k1 k2 : Nat)
    (hp1 hp2 : List (Nat × Nat)) (ks1 ks2 : List Nat) (key : Nat)
    (hh : h1 = h2) (hd : d1 = d2) (hw : w1 = w2) (hk : k1 = k2)
    (hhp : hp1 = hp2) (hks : ks1 = ks2) :
    get h1 (runObserves h1 (initSketch d1 w1 k1 hp1) ks1) key
      = get h2 (runObserves h2 (initSketch d2 w2 k2 hp2) ks2) key
    ∧ snapshot (runObserves h1 (initSketch d1 w1 k1 hp1) ks1)
      = snapshot (runObserves h2 (initSketch d2 w2 k2 hp2) ks2) := by
  subst hh; subst hd; subst hw; subst hk; subst hhp; subst hks
  exact ⟨rfl, rfl⟩

/-- C9, witness: two separately built copies of `sketchB` agree after the
stream `1, 0`. -/
theorem claim9_witness :
    get pyId (runObserves pyId (initSketch 1 3 1 [(1, 0)]) [1, 0]) 0
      = get pyId (runObserves pyId (initSketch 1 3 1 [(1, 0)]) [1, 0]) 0
    ∧ snapshot (runObserves pyId (initSketch 1 3 1 [(1, 0)]) [1, 0])
      = snapshot (runObserves pyId (initSketch 1 3 1 [(1, 0)]) [1, 0]) :=
  claim9_ok pyId pyId 1 1 3 3 1 1 [(1, 0)] [(1, 0)] [1, 0] [1, 0] 0
    rfl rfl rfl rfl rfl rfl

/-- C10: on a freshly constructed sketch with at least one hash row
(`d ≥ 1`), `get` returns `0` for every key — the `sys.maxsize` start value of
the minimum is overwritten by the first all-zero row — and the snapshot is
the empty list. -/
theorem claim10_ok (h : Nat → Int) (d w k : Nat) (hp : List (Nat × Nat)) (key : Nat)
    (hne : hp ≠ []) :
    get h (initSketch d w k hp) key = 0 ∧ snapshot (initSketch d w k hp) = [] := by
  constructor
  · unfold get initSketch
    dsimp only
    apply fold_min_zero
    · intro a _
      exact cellAt_init d w a.1 _
    · norm_num
    · intro hcon
      apply hne
      have := congrArg List.length hcon
      rw [List.enum_length] at this
      exact List.length_eq_zero.mp this
  · rfl

/-- C10, witness: the fresh `sketchA` estimates key `5` as `0` and snapshots
to the empty list. -/
theorem claim10_witness :
    ([(1, 0)] : List (Nat × Nat)) ≠ []
    ∧ (get pyId (initSketch 1 3 10 [(1, 0)]) 5 = 0
      ∧ snapshot (initSketch 1 3 10 [(1, 0)]) = []) :=
  ⟨by decide, claim10_ok pyId 1 3 10 [(1, 0)] 5 (by decide)⟩

end CountMin
